import Mathlib

/-!
Verification development for the `__compiler__` core of this repository:
a lexer, a recursive-descent parser, and a tree-walking interpreter for a
small expression language.

Two pipelines are embedded:

* `SimPL`: the self-contained pipeline of `Parser.cpp` (its `tokenize`
  function, its `Parser` class with grammar
  `declaration → let | statement`, `statement → if | print | block | exprStmt`,
  precedence ladder `assignment / equality / comparison / term / factor /
  primary`, and its `Interpreter` class).
* `Ext`: the extended lexer of `Tokenizer.hpp` together with the extended
  grammar of `Parser.hpp` (unary level, `func` / `return`, panic-mode error
  recovery via `synchronize`).

Numeric values of the interpreter (C++ `double`) are modelled as rationals;
every program considered here computes only exactly representable values,
and division by zero is outside the properties under study.
-/

/-- Splits a character list at the first character failing `p`
(the scanning loops `while (pred(peek())) advance();` of both lexers). -/
def takeWhileCh (p : Char → Bool) : List Char → List Char × List Char
  | [] => ([], [])
  | c :: cs =>
    if p c then
      let r := takeWhileCh p cs
      (c :: r.1, r.2)
    else ([], c :: cs)

namespace SimPL

/-- Token kinds of the lexer inside `Parser.cpp` (enum `TokenType`). -/
inductive TokenType where
  | OPEN_PAREN | CLOSE_PAREN | OPEN_BRACE | CLOSE_BRACE
  | SEMICOLON | PLUS | MINUS | STAR | SLASH
  | EQUAL | EQUAL_EQUAL | BANG | BANG_EQUAL
  | LESS | LESS_EQUAL | GREATER | GREATER_EQUAL
  | IDENTIFIER | STRING | NUMBER
  | IF | ELSE | PRINT | LET
  | END_OF_FILE | UNKNOWN
deriving DecidableEq, Repr

/-- `struct Token` of `Parser.cpp`. -/
structure Token where
  type : TokenType
  literal : String
  line : Nat
deriving DecidableEq, Repr

/-- The keyword table of `tokenize` in `Parser.cpp`. -/
def keywordOf (s : String) : Option TokenType :=
  if s = "if" then some .IF
  else if s = "else" then some .ELSE
  else if s = "print" then some .PRINT
  else if s = "let" then some .LET
  else none

/-- The scanning loop of `tokenize` in `Parser.cpp`: consumes the source
one lexeme at a time, returning the emitted tokens and the final line
counter. -/
def scanTokens : List Char → Nat → List Token × Nat
  | [], line => ([], line)
  | c :: cs, line =>
    if c = ' ' ∨ c = '\r' ∨ c = '\t' then scanTokens cs line
    else if c = '\n' then scanTokens cs (line + 1)
    else if c = '(' then
      let r := scanTokens cs line
      (⟨.OPEN_PAREN, "(", line⟩ :: r.1, r.2)
    else if c = ')' then
      let r := scanTokens cs line
      (⟨.CLOSE_PAREN, ")", line⟩ :: r.1, r.2)
    else if c = '\x7b' then
      let r := scanTokens cs line
      (⟨.OPEN_BRACE, "\x7b", line⟩ :: r.1, r.2)
    else if c = '\x7d' then
      let r := scanTokens cs line
      (⟨.CLOSE_BRACE, "\x7d", line⟩ :: r.1, r.2)
    else if c = ';' then
      let r := scanTokens cs line
      (⟨.SEMICOLON, ";", line⟩ :: r.1, r.2)
    else if c = '+' then
      let r := scanTokens cs line
      (⟨.PLUS, "+", line⟩ :: r.1, r.2)
    else if c = '-' then
      let r := scanTokens cs line
      (⟨.MINUS, "-", line⟩ :: r.1, r.2)
    else if c = '*' then
      let r := scanTokens cs line
      (⟨.STAR, "*", line⟩ :: r.1, r.2)
    else if c = '/' then
      let r := scanTokens cs line
      (⟨.SLASH, "/", line⟩ :: r.1, r.2)
    else if c = '=' then
      if cs.head? = some '=' then
        let r := scanTokens cs.tail line
        (⟨.EQUAL_EQUAL, "==", line⟩ :: r.1, r.2)
      else
        let r := scanTokens cs line
        (⟨.EQUAL, "=", line⟩ :: r.1, r.2)
    else if c = '!' then
      if cs.head? = some '=' then
        let r := scanTokens cs.tail line
        (⟨.BANG_EQUAL, "!=", line⟩ :: r.1, r.2)
      else
        let r := scanTokens cs line
        (⟨.BANG, "!", line⟩ :: r.1, r.2)
    else if c = '<' then
      if cs.head? = some '=' then
        let r := scanTokens cs.tail line
        (⟨.LESS_EQUAL, "<=", line⟩ :: r.1, r.2)
      else
        let r := scanTokens cs line
        (⟨.LESS, "<", line⟩ :: r.1, r.2)
    else if c = '>' then
      if cs.head? = some '=' then
        let r := scanTokens cs.tail line
        (⟨.GREATER_EQUAL, ">=", line⟩ :: r.1, r.2)
      else
        let r := scanTokens cs line
        (⟨.GREATER, ">", line⟩ :: r.1, r.2)
    else if c.isDigit then
      let d := takeWhileCh Char.isDigit cs
      let r := scanTokens d.2 line
      (⟨.NUMBER, String.mk (c :: d.1), line⟩ :: r.1, r.2)
    else if c.isAlpha ∨ c = '_' then
      let d := takeWhileCh (fun x => x.isAlphanum || x == '_') cs
      let text := String.mk (c :: d.1)
      let r := scanTokens d.2 line
      (⟨(keywordOf text).getD .IDENTIFIER, text, line⟩ :: r.1, r.2)
    else
      let r := scanTokens cs line
      (⟨.UNKNOWN, String.mk [c], line⟩ :: r.1, r.2)
termination_by cs _ => cs.length
decreasing_by
  all_goals simp_wf
  all_goals
    (have hb : ∀ (p : Char → Bool) (l : List Char),
        (takeWhileCh p l).2.length ≤ l.length := by
      intro p l
      induction l with
      | nil => simp [takeWhileCh]
      | cons x xs ih =>
        by_cases h : p x
        · simp [takeWhileCh, h]
          omega
        · simp [takeWhileCh, h]
     first
      | omega
      | (have hx := hb Char.isDigit cs; omega)
      | (have hx := hb (fun x => x.isAlphanum || x == '_') cs; omega))

/-- `tokenize` of `Parser.cpp`: the scan loop followed by the
`END_OF_FILE` sentinel. -/
def tokenize (src : String) : List Token :=
  let r := scanTokens src.data 1
  r.1 ++ [⟨.END_OF_FILE, "", r.2⟩]

/-- The expression nodes of `Parser.cpp`
(`LiteralExpr`, `VariableExpr`, `AssignExpr`, `BinaryExpr`). -/
inductive Expr where
  | lit (value : Token)
  | var (name : Token)
  | assign (name : Token) (value : Expr)
  | bin (left : Expr) (op : Token) (right : Expr)
deriving DecidableEq, Repr

/-- The statement nodes of `Parser.cpp`
(`ExpressionStmt`, `PrintStmt`, `LetStmt`, `BlockStmt`, `IfStmt`). -/
inductive Stmt where
  | exprStmt (e : Expr)
  | printStmt (e : Expr)
  | letStmt (name : Token) (init : Option Expr)
  | block (stmts : List Stmt)
  | ifStmt (cond : Expr) (thenB : Stmt) (elseB : Option Stmt)

/-- Numeric values of the interpreter (C++ `double`, modelled exactly). -/
abbrev Value := ℚ

/-- The interpreter's variable store
(`std::unordered_map<std::string, double> environment`). -/
abbrev Env := List (String × Value)

/-- Map lookup (`environment.count` / `environment.at`). -/
def envGet : Env → String → Option Value
  | [], _ => none
  | (m, w) :: rest, n => if m = n then some w else envGet rest n

/-- Map write (`environment[name] = value`): overwrites an existing
binding, otherwise appends a fresh one. -/
def envSet : Env → String → Value → Env
  | [], n, v => [(n, v)]
  | (m, w) :: rest, n, v =>
    if m = n then (n, v) :: rest else (m, w) :: envSet rest n v

/-- The single runtime error kind of the interpreter: the
`std::runtime_error` thrown for an undefined variable, carrying the
variable's name. -/
inductive EvalErr where
  | undefinedVar (name : String)
deriving DecidableEq, Repr

/-- `std::stod` restricted to the digit strings the lexer actually
produces as `NUMBER` literals. -/
def toNum (s : String) : Value :=
  ((s.data.foldl (fun a c => a * 10 + (c.toNat - 48)) 0 : ℕ) : Value)

/-- Binary operator dispatch of `Interpreter::evaluate` on `BinaryExpr`:
relational operators return `1` / `0`; the `default:` case falls through
to `return 0.0`. -/
def applyBin : TokenType → Value → Value → Value
  | .PLUS, a, b => a + b
  | .MINUS, a, b => a - b
  | .STAR, a, b => a * b
  | .SLASH, a, b => a / b
  | .GREATER, a, b => if a > b then 1 else 0
  | .GREATER_EQUAL, a, b => if a ≥ b then 1 else 0
  | .LESS, a, b => if a < b then 1 else 0
  | .LESS_EQUAL, a, b => if a ≤ b then 1 else 0
  | .EQUAL_EQUAL, a, b => if a = b then 1 else 0
  | .BANG_EQUAL, a, b => if a ≠ b then 1 else 0
  | _, _, _ => 0

/-- `Interpreter::evaluate`: expression evaluation with explicit
environment passing.  The environment component is returned even in the
error case, since a thrown C++ exception leaves prior mutations in
place. -/
def eval : Expr → Env → Env × Except EvalErr Value
  | .lit t, env => (env, .ok (toNum t.literal))
  | .var t, env =>
    match envGet env t.literal with
    | some v => (env, .ok v)
    | none => (env, .error (.undefinedVar t.literal))
  | .assign t e, env =>
    match eval e env with
    | (env1, .error er) => (env1, .error er)
    | (env1, .ok v) =>
      match envGet env1 t.literal with
      | some _ => (envSet env1 t.literal v, .ok v)
      | none => (env1, .error (.undefinedVar t.literal))
  | .bin l op r, env =>
    match eval l env with
    | (env1, .error er) => (env1, .error er)
    | (env1, .ok a) =>
      match eval r env1 with
      | (env2, .error er) => (env2, .error er)
      | (env2, .ok b) => (env2, .ok (applyBin op.type a b))

mutual

/-- `Interpreter::execute`: statement execution, returning the new
environment, the values printed (in order), and the runtime error if one
was raised. -/
def exec : Stmt → Env → Env × List Value × Option EvalErr
  | .exprStmt e, env =>
    match eval e env with
    | (env1, .ok _) => (env1, [], none)
    | (env1, .error er) => (env1, [], some er)
  | .printStmt e, env =>
    match eval e env with
    | (env1, .ok v) => (env1, [v], none)
    | (env1, .error er) => (env1, [], some er)
  | .letStmt t init, env =>
    match init with
    | none => (envSet env t.literal 0, [], none)
    | some e =>
      match eval e env with
      | (env1, .ok v) => (envSet env1 t.literal v, [], none)
      | (env1, .error er) => (env1, [], some er)
  | .block stmts, env => execList stmts env
  | .ifStmt c t e, env =>
    match eval c env with
    | (env1, .error er) => (env1, [], some er)
    | (env1, .ok v) =>
      if v ≠ 0 then exec t env1
      else
        match e with
        | some el => exec el env1
        | none => (env1, [], none)

/-- The statement loop shared by `Interpreter::interpret` and block
execution: runs statements in order, stopping at the first runtime
error. -/
def execList : List Stmt → Env → Env × List Value × Option EvalErr
  | [], env => (env, [], none)
  | s :: rest, env =>
    match exec s env with
    | (env1, out1, some er) => (env1, out1, some er)
    | (env1, out1, none) =>
      let r := execList rest env1
      (r.1, out1 ++ r.2.1, r.2.2)

end

/-- `Interpreter::interpret`: executes the statements against an
initially empty environment; the single top-level catch stops execution
at the first runtime error and reports it. -/
def interpret (stmts : List Stmt) : List Value × Option EvalErr :=
  let r := execList stmts []
  (r.2.1, r.2.2)

/-- Parse errors of `Parser` in `Parser.cpp`: `syn` models the
`std::runtime_error` thrown as `"[line L] Error: <message>"` (line and
message kept separately); `fuel` marks exhaustion of the recursion
allowance of this embedding and never arises at the allowances used
below. -/
inductive PErr where
  | syn (line : Nat) (msg : String)
  | fuel
deriving DecidableEq, Repr

abbrev Toks := List Token

abbrev P (α : Type) := Except PErr α

/-- `Parser::consume`: take a token of the expected type or raise the
given error at the current token's line (`check` is false at
end-of-input). -/
def consume (ty : TokenType) (msg : String) : Toks → P (Token × Toks)
  | t :: rest =>
    if t.type = ty ∧ t.type ≠ .END_OF_FILE then .ok (t, rest)
    else .error (.syn t.line msg)
  | [] => .error (.syn 0 msg)

mutual

/-- `Parser::expression` (precedence level 0). -/
def expression (f : Nat) (ts : Toks) : P (Expr × Toks) :=
  match f with
  | 0 => .error .fuel
  | f + 1 => assignment f ts

/-- `Parser::assignment`: right-associative `=`, with the
invalid-assignment-target check performed after the value has
parsed. -/
def assignment (f : Nat) (ts : Toks) : P (Expr × Toks) :=
  match f with
  | 0 => .error .fuel
  | f + 1 => do
    let (e, ts1) ← equality f ts
    match ts1 with
    | t :: rest =>
      if t.type = .EQUAL then do
        let (v, ts2) ← assignment f rest
        match e with
        | .var name => .ok (.assign name v, ts2)
        | _ => .error (.syn t.line "Invalid assignment target.")
      else .ok (e, t :: rest)
    | [] => .ok (e, [])

/-- `Parser::equality`. -/
def equality (f : Nat) (ts : Toks) : P (Expr × Toks) :=
  match f with
  | 0 => .error .fuel
  | f + 1 => do
    let (e, ts1) ← comparison f ts
    equalityLoop f e ts1

/-- The `while (match({BANG_EQUAL, EQUAL_EQUAL}))` loop of
`Parser::equality`, building left-associative nodes. -/
def equalityLoop (f : Nat) (e : Expr) (ts : Toks) : P (Expr × Toks) :=
  match f with
  | 0 => .error .fuel
  | f + 1 =>
    match ts with
    | t :: rest =>
      if t.type = .BANG_EQUAL ∨ t.type = .EQUAL_EQUAL then do
        let (r, ts2) ← comparison f rest
        equalityLoop f (.bin e t r) ts2
      else .ok (e, t :: rest)
    | [] => .ok (e, [])

/-- `Parser::comparison`. -/
def comparison (f : Nat) (ts : Toks) : P (Expr × Toks) :=
  match f with
  | 0 => .error .fuel
  | f + 1 => do
    let (e, ts1) ← term f ts
    comparisonLoop f e ts1

/-- The relational-operator loop of `Parser::comparison`. -/
def comparisonLoop (f : Nat) (e : Expr) (ts : Toks) : P (Expr × Toks) :=
  match f with
  | 0 => .error .fuel
  | f + 1 =>
    match ts with
    | t :: rest =>
      if t.type = .GREATER ∨ t.type = .GREATER_EQUAL ∨
          t.type = .LESS ∨ t.type = .LESS_EQUAL then do
        let (r, ts2) ← term f rest
        comparisonLoop f (.bin e t r) ts2
      else .ok (e, t :: rest)
    | [] => .ok (e, [])

/-- `Parser::term` (`+`, `-`). -/
def term (f : Nat) (ts : Toks) : P (Expr × Toks) :=
  match f with
  | 0 => .error .fuel
  | f + 1 => do
    let (e, ts1) ← factor f ts
    termLoop f e ts1

/-- The additive-operator loop of `Parser::term`. -/
def termLoop (f : Nat) (e : Expr) (ts : Toks) : P (Expr × Toks) :=
  match f with
  | 0 => .error .fuel
  | f + 1 =>
    match ts with
    | t :: rest =>
      if t.type = .MINUS ∨ t.type = .PLUS then do
        let (r, ts2) ← factor f rest
        termLoop f (.bin e t r) ts2
      else .ok (e, t :: rest)
    | [] => .ok (e, [])

/-- `Parser::factor` (`*`, `/`); note it descends directly to
`primary` — this parser has no unary level. -/
def factor (f : Nat) (ts : Toks) : P (Expr × Toks) :=
  match f with
  | 0 => .error .fuel
  | f + 1 => do
    let (e, ts1) ← primary f ts
    factorLoop f e ts1

/-- The multiplicative-operator loop of `Parser::factor`. -/
def factorLoop (f : Nat) (e : Expr) (ts : Toks) : P (Expr × Toks) :=
  match f with
  | 0 => .error .fuel
  | f + 1 =>
    match ts with
    | t :: rest =>
      if t.type = .SLASH ∨ t.type = .STAR then do
        let (r, ts2) ← primary f rest
        factorLoop f (.bin e t r) ts2
      else .ok (e, t :: rest)
    | [] => .ok (e, [])

/-- `Parser::primary`: literals, variables and parenthesised
grouping; anything else raises "Expect expression.". -/
def primary (f : Nat) (ts : Toks) : P (Expr × Toks) :=
  match f with
  | 0 => .error .fuel
  | f + 1 =>
    match ts with
    | t :: rest =>
      match t.type with
      | .NUMBER => .ok (.lit t, rest)
      | .STRING => .ok (.lit t, rest)
      | .IDENTIFIER => .ok (.var t, rest)
      | .OPEN_PAREN => do
        let (e, ts1) ← expression f rest
        let (_, ts2) ← consume .CLOSE_PAREN "Expect ')' after expression." ts1
        .ok (e, ts2)
      | _ => .error (.syn t.line "Expect expression.")
    | [] => .error (.syn 0 "Expect expression.")

end

mutual

/-- `Parser::declaration`: `let` declarations or other statements. -/
def declaration (f : Nat) (ts : Toks) : P (Stmt × Toks) :=
  match f with
  | 0 => .error .fuel
  | f + 1 =>
    match ts with
    | t :: rest =>
      if t.type = .LET then let_declaration f rest
      else statement f (t :: rest)
    | [] => statement f []

/-- `Parser::let_declaration`. -/
def let_declaration (f : Nat) (ts : Toks) : P (Stmt × Toks) :=
  match f with
  | 0 => .error .fuel
  | f + 1 => do
    let (name, ts1) ← consume .IDENTIFIER "Expect variable name." ts
    match ts1 with
    | t :: rest =>
      if t.type = .EQUAL then do
        let (e, ts2) ← expression f rest
        let (_, ts3) ← consume .SEMICOLON "Expect ';' after variable declaration." ts2
        .ok (.letStmt name (some e), ts3)
      else do
        let (_, ts3) ← consume .SEMICOLON "Expect ';' after variable declaration." (t :: rest)
        .ok (.letStmt name none, ts3)
    | [] => do
      let (_, ts3) ← consume .SEMICOLON "Expect ';' after variable declaration." []
      .ok (.letStmt name none, ts3)

/-- `Parser::statement`: router for `if`, `print`, blocks and
expression statements. -/
def statement (f : Nat) (ts : Toks) : P (Stmt × Toks) :=
  match f with
  | 0 => .error .fuel
  | f + 1 =>
    match ts with
    | t :: rest =>
      if t.type = .IF then if_statement f rest
      else if t.type = .PRINT then print_statement f rest
      else if t.type = .OPEN_BRACE then do
        let (ss, ts1) ← block f rest
        .ok (.block ss, ts1)
      else expression_statement f (t :: rest)
    | [] => expression_statement f []

/-- `Parser::if_statement`. -/
def if_statement (f : Nat) (ts : Toks) : P (Stmt × Toks) :=
  match f with
  | 0 => .error .fuel
  | f + 1 => do
    let (_, ts1) ← consume .OPEN_PAREN "Expect '(' after 'if'." ts
    let (cond, ts2) ← expression f ts1
    let (_, ts3) ← consume .CLOSE_PAREN "Expect ')' after if condition." ts2
    let (thenB, ts4) ← statement f ts3
    match ts4 with
    | t :: rest =>
      if t.type = .ELSE then do
        let (elseB, ts5) ← statement f rest
        .ok (.ifStmt cond thenB (some elseB), ts5)
      else .ok (.ifStmt cond thenB none, t :: rest)
    | [] => .ok (.ifStmt cond thenB none, [])

/-- `Parser::block`: declarations until `}` or end-of-input, then the
mandatory closing brace. -/
def block (f : Nat) (ts : Toks) : P (List Stmt × Toks) :=
  match f with
  | 0 => .error .fuel
  | f + 1 =>
    match ts with
    | t :: rest =>
      if t.type ≠ .CLOSE_BRACE ∧ t.type ≠ .END_OF_FILE then do
        let (s, ts1) ← declaration f (t :: rest)
        let (ss, ts2) ← block f ts1
        .ok (s :: ss, ts2)
      else do
        let (_, ts1) ← consume .CLOSE_BRACE "Expect '\x7d' after block." (t :: rest)
        .ok ([], ts1)
    | [] => do
      let (_, ts1) ← consume .CLOSE_BRACE "Expect '\x7d' after block." []
      .ok (([] : List Stmt), ts1)

/-- `Parser::print_statement`. -/
def print_statement (f : Nat) (ts : Toks) : P (Stmt × Toks) :=
  match f with
  | 0 => .error .fuel
  | f + 1 => do
    let (v, ts1) ← expression f ts
    let (_, ts2) ← consume .SEMICOLON "Expect ';' after value." ts1
    .ok (.printStmt v, ts2)

/-- `Parser::expression_statement`. -/
def expression_statement (f : Nat) (ts : Toks) : P (Stmt × Toks) :=
  match f with
  | 0 => .error .fuel
  | f + 1 => do
    let (e, ts1) ← expression f ts
    let (_, ts2) ← consume .SEMICOLON "Expect ';' after expression." ts1
    .ok (.exprStmt e, ts2)

end

/-- The `while (peek().type != END_OF_FILE)` loop of
`Parser::parse`. -/
def parseLoop (f : Nat) (ts : Toks) : P (List Stmt) :=
  match f with
  | 0 => .error .fuel
  | f + 1 =>
    match ts with
    | [] => .ok []
    | t :: _ =>
      if t.type = .END_OF_FILE then .ok []
      else do
        let (s, ts1) ← declaration f ts
        let ss ← parseLoop f ts1
        .ok (s :: ss)

/-- `Parser::parse` of `Parser.cpp`: collects declarations until
end-of-file.  This parser has no error recovery: the first syntax error
propagates out of `parse` itself. -/
def parse (fuel : Nat) (ts : Toks) : P (List Stmt) := parseLoop fuel ts

/-- The `dynamic_cast<VariableExpr*>` test of `Parser::assignment`. -/
def isVarE : Expr → Bool
  | .var _ => true
  | _ => false

/-- The full pipeline of `Parser.cpp`'s `main`: tokenize, parse, and
interpret, reporting parse errors unchanged. -/
def run (src : String) : P (List Value × Option EvalErr) :=
  Except.map interpret (parse 200 (tokenize src))

/-- The value of the top-level expression of a one-statement program
consisting of a single expression statement. -/
def topExprValue (src : String) : Option (Except EvalErr Value) :=
  match parse 200 (tokenize src) with
  | .ok [.exprStmt e] => some (eval e []).2
  | _ => none

/-- An expression containing no `Assign` subexpression. -/
def noAssign : Expr → Bool
  | .lit _ => true
  | .var _ => true
  | .assign _ _ => false
  | .bin l _ r => noAssign l && noAssign r

mutual

/-- A statement containing no `let` declaration and no `Assign`
expression anywhere inside it. -/
def pureStmt : Stmt → Bool
  | .exprStmt e => noAssign e
  | .printStmt e => noAssign e
  | .letStmt _ _ => false
  | .block ss => pureStmts ss
  | .ifStmt c t e =>
    noAssign c && pureStmt t &&
      (match e with
       | some s => pureStmt s
       | none => true)

/-- `pureStmt` over a statement list. -/
def pureStmts : List Stmt → Bool
  | [] => true
  | s :: rest => pureStmt s && pureStmts rest

end

end SimPL

namespace Ext

/-- Token kinds of `Tokenizer.hpp` (enum `TokenType`). -/
inductive TokenType where
  | IDENTIFIER
  | KEYWORD_FUNC | KEYWORD_RETURN | KEYWORD_IF | KEYWORD_ELSE | KEYWORD_LET
  | KEYWORD_WHILE | KEYWORD_FOR
  | KEYWORD_INT | KEYWORD_STRING | KEYWORD_CHAR | KEYWORD_BOOL
  | KEYWORD_TRUE | KEYWORD_FALSE | KEYWORD_NIL
  | INTEGER_LITERAL | FLOAT_LITERAL | STRING_LITERAL | CHAR_LITERAL
  | EQUALS | PLUS | MINUS | STAR | SLASH | PERCENT | CARET
  | DBL_EQUALS | NOT_EQUALS | LESS | GREATER | LESS_EQ | GREATER_EQ
  | LOGICAL_AND | LOGICAL_OR
  | OPEN_PAREN | CLOSE_PAREN | OPEN_BRACE | CLOSE_BRACE | SEMICOLON | COMMA
  | UNKNOWN | END_OF_FILE
deriving DecidableEq, Repr

/-- `struct Token` of `Tokenizer.hpp`. -/
structure Token where
  literal : String
  type : TokenType
  line : Nat
deriving DecidableEq, Repr

/-- The keyword table built in the `Tokenizer` constructor
(`inline static std::unordered_map<std::string, TokenType> keywords`). -/
def kwTable : List (String × TokenType) :=
  [("func", .KEYWORD_FUNC), ("return", .KEYWORD_RETURN), ("if", .KEYWORD_IF),
   ("else", .KEYWORD_ELSE), ("let", .KEYWORD_LET), ("while", .KEYWORD_WHILE),
   ("for", .KEYWORD_FOR), ("int", .KEYWORD_INT), ("string", .KEYWORD_STRING),
   ("char", .KEYWORD_CHAR), ("bool", .KEYWORD_BOOL), ("true", .KEYWORD_TRUE),
   ("false", .KEYWORD_FALSE), ("nil", .KEYWORD_NIL)]

/-- The keyword lookup of `Tokenizer::identifier`
(`keywords.find(std::string(text))`). -/
def kw (s : String) : Option TokenType :=
  (kwTable.find? (fun p => p.1 = s)).map (fun p => p.2)

/-- The scan of `Tokenizer::string_literal` after the opening quote:
consumed characters (closing quote included when found), remaining
input, updated line counter, and whether the literal was terminated. -/
def scanStr : List Char → Nat → List Char × List Char × Nat × Bool
  | [], line => ([], [], line, false)
  | c :: cs, line =>
    if c = '"' then ([c], cs, line, true)
    else
      let r := scanStr cs (if c = '\n' then line + 1 else line)
      (c :: r.1, r.2.1, r.2.2.1, r.2.2.2)

/-- The scan of `Tokenizer::char_literal` after the opening quote
(no line counting). -/
def scanChr : List Char → List Char × List Char × Bool
  | [] => ([], [], false)
  | c :: cs =>
    if c = '\'' then ([c], cs, true)
    else
      let r := scanChr cs
      (c :: r.1, r.2.1, r.2.2)

/-- The scanning loop of `Tokenizer::tokenize`: emits tokens until the
input is exhausted, returning them with the final line counter. -/
def scanTokens : List Char → Nat → List Token × Nat
  | [], line => ([], line)
  | c :: cs, line =>
    if c = '(' then
      let r := scanTokens cs line
      (⟨"(", .OPEN_PAREN, line⟩ :: r.1, r.2)
    else if c = ')' then
      let r := scanTokens cs line
      (⟨")", .CLOSE_PAREN, line⟩ :: r.1, r.2)
    else if c = '\x7b' then
      let r := scanTokens cs line
      (⟨"\x7b", .OPEN_BRACE, line⟩ :: r.1, r.2)
    else if c = '\x7d' then
      let r := scanTokens cs line
      (⟨"\x7d", .CLOSE_BRACE, line⟩ :: r.1, r.2)
    else if c = ';' then
      let r := scanTokens cs line
      (⟨";", .SEMICOLON, line⟩ :: r.1, r.2)
    else if c = ',' then
      let r := scanTokens cs line
      (⟨",", .COMMA, line⟩ :: r.1, r.2)
    else if c = '+' then
      let r := scanTokens cs line
      (⟨"+", .PLUS, line⟩ :: r.1, r.2)
    else if c = '-' then
      let r := scanTokens cs line
      (⟨"-", .MINUS, line⟩ :: r.1, r.2)
    else if c = '*' then
      let r := scanTokens cs line
      (⟨"*", .STAR, line⟩ :: r.1, r.2)
    else if c = '%' then
      let r := scanTokens cs line
      (⟨"%", .PERCENT, line⟩ :: r.1, r.2)
    else if c = '^' then
      let r := scanTokens cs line
      (⟨"^", .CARET, line⟩ :: r.1, r.2)
    else if c = '=' then
      if cs.head? = some '=' then
        let r := scanTokens cs.tail line
        (⟨"==", .DBL_EQUALS, line⟩ :: r.1, r.2)
      else
        let r := scanTokens cs line
        (⟨"=", .EQUALS, line⟩ :: r.1, r.2)
    else if c = '!' then
      if cs.head? = some '=' then
        let r := scanTokens cs.tail line
        (⟨"!=", .NOT_EQUALS, line⟩ :: r.1, r.2)
      else
        let r := scanTokens cs line
        (⟨"!", .UNKNOWN, line⟩ :: r.1, r.2)
    else if c = '<' then
      if cs.head? = some '=' then
        let r := scanTokens cs.tail line
        (⟨"<=", .LESS_EQ, line⟩ :: r.1, r.2)
      else
        let r := scanTokens cs line
        (⟨"<", .LESS, line⟩ :: r.1, r.2)
    else if c = '>' then
      if cs.head? = some '=' then
        let r := scanTokens cs.tail line
        (⟨">=", .GREATER_EQ, line⟩ :: r.1, r.2)
      else
        let r := scanTokens cs line
        (⟨">", .GREATER, line⟩ :: r.1, r.2)
    else if c = '&' then
      if cs.head? = some '&' then
        let r := scanTokens cs.tail line
        (⟨"&&", .LOGICAL_AND, line⟩ :: r.1, r.2)
      else
        let r := scanTokens cs line
        (⟨"&", .UNKNOWN, line⟩ :: r.1, r.2)
    else if c = '|' then
      if cs.head? = some '|' then
        let r := scanTokens cs.tail line
        (⟨"||", .LOGICAL_OR, line⟩ :: r.1, r.2)
      else
        let r := scanTokens cs line
        (⟨"|", .UNKNOWN, line⟩ :: r.1, r.2)
    else if c = '/' then
      if cs.head? = some '/' then
        scanTokens (takeWhileCh (fun x => x ≠ '\n') cs.tail).2 line
      else
        let r := scanTokens cs line
        (⟨"/", .SLASH, line⟩ :: r.1, r.2)
    else if c = '"' then
      let s := scanStr cs line
      if s.2.2.2 then
        let r := scanTokens s.2.1 s.2.2.1
        (⟨String.mk ('"' :: s.1), .STRING_LITERAL, s.2.2.1⟩ :: r.1, r.2)
      else
        let r := scanTokens s.2.1 s.2.2.1
        (⟨String.mk ('"' :: s.1), .UNKNOWN, s.2.2.1⟩ :: r.1, r.2)
    else if c = '\'' then
      let s := scanChr cs
      if s.2.2 then
        let r := scanTokens s.2.1 line
        (⟨String.mk ('\'' :: s.1), .CHAR_LITERAL, line⟩ :: r.1, r.2)
      else
        let r := scanTokens s.2.1 line
        (⟨String.mk ('\'' :: s.1), .UNKNOWN, line⟩ :: r.1, r.2)
    else if c = ' ' ∨ c = '\r' ∨ c = '\t' then scanTokens cs line
    else if c = '\n' then scanTokens cs (line + 1)
    else if c.isDigit then
      let d := takeWhileCh Char.isDigit cs
      if d.2.head? = some '.' ∧ (d.2.tail.head?.map Char.isDigit).getD false then
        let d2 := takeWhileCh Char.isDigit d.2.tail
        let r := scanTokens d2.2 line
        (⟨String.mk (c :: d.1 ++ '.' :: d2.1), .FLOAT_LITERAL, line⟩ :: r.1, r.2)
      else
        let r := scanTokens d.2 line
        (⟨String.mk (c :: d.1), .INTEGER_LITERAL, line⟩ :: r.1, r.2)
    else if c.isAlpha ∨ c = '_' then
      let d := takeWhileCh (fun x => x.isAlphanum || x == '_') cs
      let text := String.mk (c :: d.1)
      let r := scanTokens d.2 line
      (⟨text, (kw text).getD .IDENTIFIER, line⟩ :: r.1, r.2)
    else
      let r := scanTokens cs line
      (⟨String.mk [c], .UNKNOWN, line⟩ :: r.1, r.2)
termination_by cs _ => cs.length
decreasing_by
  all_goals simp_wf
  all_goals
    (have hb : ∀ (p : Char → Bool) (l : List Char),
        (takeWhileCh p l).2.length ≤ l.length := by
      intro p l
      induction l with
      | nil => simp [takeWhileCh]
      | cons x xs ih =>
        by_cases h : p x
        · simp [takeWhileCh, h]
          omega
        · simp [takeWhileCh, h]
     have hs : ∀ (l : List Char) (n : Nat),
        (scanStr l n).2.1.length ≤ l.length := by
      intro l
      induction l with
      | nil => intro _; simp [scanStr]
      | cons x xs ih =>
        intro n
        by_cases h : x = '"'
        · simp [scanStr, h]
        · simp [scanStr, h]
          exact le_trans (ih _) (Nat.le_succ _)
     have hc : ∀ (l : List Char),
        (scanChr l).2.1.length ≤ l.length := by
      intro l
      induction l with
      | nil => simp [scanChr]
      | cons x xs ih =>
        by_cases h : x = '\''
        · simp [scanChr, h]
        · simp [scanChr, h]
          exact le_trans ih (Nat.le_succ _)
     first
      | omega
      | (have hx := hb (fun x => !decide (x = '\n')) cs.tail
         have hy := cs.length_tail
         omega)
      | (have hx := hs cs line; omega)
      | (have hx := hc cs; omega)
      | (have h1 := hb Char.isDigit cs
         have h2 := hb Char.isDigit (takeWhileCh Char.isDigit cs).2.tail
         have h3 := (takeWhileCh Char.isDigit cs).2.length_tail
         omega)
      | (have hx := hb (fun x => x.isAlphanum || x == '_') cs; omega))

/-- `Tokenizer::tokenize` of `Tokenizer.hpp`: the scanning loop
followed by the `END_OF_FILE` sentinel. -/
def tokenize (src : String) : List Token :=
  let r := scanTokens src.data 1
  r.1 ++ [⟨"", .END_OF_FILE, r.2⟩]

/-- Expression nodes of `AST.hpp` (`LiteralExpr`, `VariableExpr`,
`AssignExpr`, `UnaryExpr`, `BinaryExpr`). -/
inductive Expr where
  | literal (value : Token)
  | var (name : Token)
  | assign (name : Token) (value : Expr)
  | unary (op : Token) (right : Expr)
  | binary (left : Expr) (op : Token) (right : Expr)
deriving DecidableEq, Repr

/-- Statement nodes of `AST.hpp` (`ExpressionStmt`, `BlockStmt`,
`FunctionStmt`, `IfStmt`, `ReturnStmt`); a function body is the
statement list of its `BlockStmt`. -/
inductive Stmt where
  | exprStmt (e : Expr)
  | blockStmt (statements : List Stmt)
  | functionStmt (name : Token) (body : List Stmt)
  | ifStmt (condition : Expr) (then_branch : Stmt) (else_branch : Option Stmt)
  | returnStmt (keyword : Token) (value : Option Expr)

/-- A parse diagnostic of the extended parser: line of the offending
token and message (reported as `"[line L] Error: <message>"`). -/
structure PErr where
  line : Nat
  msg : String
deriving DecidableEq, Repr

/-- A parser failure: a syntax error carrying the remaining tokens at
the moment the error is raised (the parser's position when it throws),
or fuel exhaustion of this embedding. -/
inductive PFail where
  | syn (e : PErr) (rest : List Token)
  | fuel
deriving DecidableEq, Repr

abbrev Toks := List Token

abbrev PR (α : Type) := Except PFail α

/-- Modelled from the spec: `Parser::consume` of the extended parser,
whose implementation file for `Parser.hpp` is not among the sources —
take a token of the expected type or raise a parse error carrying the
offending token's line. -/
def consume (ty : TokenType) (msg : String) : Toks → PR (Token × Toks)
  | t :: rest =>
    if t.type = ty ∧ t.type ≠ .END_OF_FILE then .ok (t, rest)
    else .error (.syn ⟨t.line, msg⟩ (t :: rest))
  | [] => .error (.syn ⟨0, msg⟩ [])

mutual

/-- Modelled from the spec: `Parser::expression` (§4.3,
`expression → assignment`); the implementation declared in `Parser.hpp`
is not among the sources. -/
def expression (f : Nat) (ts : Toks) : PR (Expr × Toks) :=
  match f with
  | 0 => .error .fuel
  | f + 1 => assignment f ts

/-- Modelled from the spec: `Parser::assignment` (§4.3,
`assignment → equality ('=' assignment)?`, right-associative, with the
invalid-assignment-target check). -/
def assignment (f : Nat) (ts : Toks) : PR (Expr × Toks) :=
  match f with
  | 0 => .error .fuel
  | f + 1 => do
    let (e, ts1) ← equality f ts
    match ts1 with
    | t :: rest =>
      if t.type = .EQUALS then do
        let (v, ts2) ← assignment f rest
        match e with
        | .var name => .ok (.assign name v, ts2)
        | _ => .error (.syn ⟨t.line, "Invalid assignment target."⟩ ts2)
      else .ok (e, t :: rest)
    | [] => .ok (e, [])

/-- Modelled from the spec: `Parser::equality` (§4.3,
`equality → comparison (('=='|'!=') comparison)*`). -/
def equality (f : Nat) (ts : Toks) : PR (Expr × Toks) :=
  match f with
  | 0 => .error .fuel
  | f + 1 => do
    let (e, ts1) ← comparison f ts
    equalityLoop f e ts1

/-- Modelled from the spec: the operator loop of `Parser::equality`,
building left-associative nodes. -/
def equalityLoop (f : Nat) (e : Expr) (ts : Toks) : PR (Expr × Toks) :=
  match f with
  | 0 => .error .fuel
  | f + 1 =>
    match ts with
    | t :: rest =>
      if t.type = .DBL_EQUALS ∨ t.type = .NOT_EQUALS then do
        let (r, ts2) ← comparison f rest
        equalityLoop f (.binary e t r) ts2
      else .ok (e, t :: rest)
    | [] => .ok (e, [])

/-- Modelled from the spec: `Parser::comparison` (§4.3,
`comparison → term (('<'|'<='|'>'|'>=') term)*`). -/
def comparison (f : Nat) (ts : Toks) : PR (Expr × Toks) :=
  match f with
  | 0 => .error .fuel
  | f + 1 => do
    let (e, ts1) ← term f ts
    comparisonLoop f e ts1

/-- Modelled from the spec: the operator loop of
`Parser::comparison`. -/
def comparisonLoop (f : Nat) (e : Expr) (ts : Toks) : PR (Expr × Toks) :=
  match f with
  | 0 => .error .fuel
  | f + 1 =>
    match ts with
    | t :: rest =>
      if t.type = .LESS ∨ t.type = .LESS_EQ ∨
          t.type = .GREATER ∨ t.type = .GREATER_EQ then do
        let (r, ts2) ← term f rest
        comparisonLoop f (.binary e t r) ts2
      else .ok (e, t :: rest)
    | [] => .ok (e, [])

/-- Modelled from the spec: `Parser::term` (§4.3,
`term → factor (('+'|'-') factor)*`). -/
def term (f : Nat) (ts : Toks) : PR (Expr × Toks) :=
  match f with
  | 0 => .error .fuel
  | f + 1 => do
    let (e, ts1) ← factor f ts
    termLoop f e ts1

/-- Modelled from the spec: the operator loop of `Parser::term`. -/
def termLoop (f : Nat) (e : Expr) (ts : Toks) : PR (Expr × Toks) :=
  match f with
  | 0 => .error .fuel
  | f + 1 =>
    match ts with
    | t :: rest =>
      if t.type = .PLUS ∨ t.type = .MINUS then do
        let (r, ts2) ← factor f rest
        termLoop f (.binary e t r) ts2
      else .ok (e, t :: rest)
    | [] => .ok (e, [])

/-- Modelled from the spec: `Parser::factor` (§4.3,
`factor → unary (('*'|'/'|'%') unary)*`). -/
def factor (f : Nat) (ts : Toks) : PR (Expr × Toks) :=
  match f with
  | 0 => .error .fuel
  | f + 1 => do
    let (e, ts1) ← unary f ts
    factorLoop f e ts1

/-- Modelled from the spec: the operator loop of `Parser::factor`. -/
def factorLoop (f : Nat) (e : Expr) (ts : Toks) : PR (Expr × Toks) :=
  match f with
  | 0 => .error .fuel
  | f + 1 =>
    match ts with
    | t :: rest =>
      if t.type = .STAR ∨ t.type = .SLASH ∨ t.type = .PERCENT then do
        let (r, ts2) ← unary f rest
        factorLoop f (.binary e t r) ts2
      else .ok (e, t :: rest)
    | [] => .ok (e, [])

/-- Modelled from the spec: `Parser::unary` (§4.3,
`unary → '-' unary | primary`), declared in `Parser.hpp` at line 38 but
implemented in no source file. -/
def unary (f : Nat) (ts : Toks) : PR (Expr × Toks) :=
  match f with
  | 0 => .error .fuel
  | f + 1 =>
    match ts with
    | t :: rest =>
      if t.type = .MINUS then do
        let (r, ts2) ← unary f rest
        .ok (.unary t r, ts2)
      else primary f (t :: rest)
    | [] => primary f []

/-- Modelled from the spec: `Parser::primary` (§4.3,
`primary → NUMBER | STRING | CHAR | 'true' | 'false' | 'nil' |
IDENTIFIER | '(' expression ')'`). -/
def primary (f : Nat) (ts : Toks) : PR (Expr × Toks) :=
  match f with
  | 0 => .error .fuel
  | f + 1 =>
    match ts with
    | t :: rest =>
      match t.type with
      | .INTEGER_LITERAL => .ok (.literal t, rest)
      | .FLOAT_LITERAL => .ok (.literal t, rest)
      | .STRING_LITERAL => .ok (.literal t, rest)
      | .CHAR_LITERAL => .ok (.literal t, rest)
      | .KEYWORD_TRUE => .ok (.literal t, rest)
      | .KEYWORD_FALSE => .ok (.literal t, rest)
      | .KEYWORD_NIL => .ok (.literal t, rest)
      | .IDENTIFIER => .ok (.var t, rest)
      | .OPEN_PAREN => do
        let (e, ts1) ← expression f rest
        let (_, ts2) ← consume .CLOSE_PAREN "Expect ')' after expression." ts1
        .ok (e, ts2)
      | _ => .error (.syn ⟨t.line, "Expect expression."⟩ (t :: rest))
    | [] => .error (.syn ⟨0, "Expect expression."⟩ [])

end

mutual

/-- Modelled from the spec: `Parser::declaration` (§4.3,
`declaration → function_decl | statement`, with a two-token peek for
`'func' IDENTIFIER`). -/
def declaration (f : Nat) (ts : Toks) : PR (Stmt × Toks) :=
  match f with
  | 0 => .error .fuel
  | f + 1 =>
    match ts with
    | t :: u :: rest =>
      if t.type = .KEYWORD_FUNC ∧ u.type = .IDENTIFIER then
        function_declaration f (t :: u :: rest)
      else statement f (t :: u :: rest)
    | ts => statement f ts

/-- Modelled from the spec: `Parser::function_declaration` (§4.3,
`function_decl → 'func' IDENTIFIER '(' ')' block`, the parameter list
always empty). -/
def function_declaration (f : Nat) (ts : Toks) : PR (Stmt × Toks) :=
  match f with
  | 0 => .error .fuel
  | f + 1 => do
    let (_, ts1) ← consume .KEYWORD_FUNC "Expect 'func'." ts
    let (name, ts2) ← consume .IDENTIFIER "Expect function name." ts1
    let (_, ts3) ← consume .OPEN_PAREN "Expect '(' after function name." ts2
    let (_, ts4) ← consume .CLOSE_PAREN "Expect ')' after parameters." ts3
    let (_, ts5) ← consume .OPEN_BRACE "Expect '\x7b' before function body." ts4
    let (body, ts6) ← block f ts5
    .ok (.functionStmt name body, ts6)

/-- Modelled from the spec: `Parser::statement` (§4.3,
`statement → if_stmt | return_stmt | block | expression_stmt`). -/
def statement (f : Nat) (ts : Toks) : PR (Stmt × Toks) :=
  match f with
  | 0 => .error .fuel
  | f + 1 =>
    match ts with
    | t :: rest =>
      if t.type = .KEYWORD_IF then if_statement f rest
      else if t.type = .KEYWORD_RETURN then return_statement f t rest
      else if t.type = .OPEN_BRACE then do
        let (ss, ts1) ← block f rest
        .ok (.blockStmt ss, ts1)
      else expression_statement f (t :: rest)
    | [] => expression_statement f []

/-- Modelled from the spec: `Parser::if_statement` (§4.3,
`if_stmt → 'if' '(' expression ')' statement ('else' statement)?`). -/
def if_statement (f : Nat) (ts : Toks) : PR (Stmt × Toks) :=
  match f with
  | 0 => .error .fuel
  | f + 1 => do
    let (_, ts1) ← consume .OPEN_PAREN "Expect '(' after 'if'." ts
    let (cond, ts2) ← expression f ts1
    let (_, ts3) ← consume .CLOSE_PAREN "Expect ')' after if condition." ts2
    let (thenB, ts4) ← statement f ts3
    match ts4 with
    | t :: rest =>
      if t.type = .KEYWORD_ELSE then do
        let (elseB, ts5) ← statement f rest
        .ok (.ifStmt cond thenB (some elseB), ts5)
      else .ok (.ifStmt cond thenB none, t :: rest)
    | [] => .ok (.ifStmt cond thenB none, [])

/-- Modelled from the spec: `Parser::return_statement` (§4.3,
`return_stmt` with an optional value before the semicolon). -/
def return_statement (f : Nat) (keyword : Token) (ts : Toks) : PR (Stmt × Toks) :=
  match f with
  | 0 => .error .fuel
  | f + 1 =>
    match ts with
    | t :: rest =>
      if t.type = .SEMICOLON then .ok (.returnStmt keyword none, rest)
      else do
        let (v, ts1) ← expression f (t :: rest)
        let (_, ts2) ← consume .SEMICOLON "Expect ';' after return value." ts1
        .ok (.returnStmt keyword (some v), ts2)
    | [] => do
      let (v, ts1) ← expression f []
      let (_, ts2) ← consume .SEMICOLON "Expect ';' after return value." ts1
      .ok (.returnStmt keyword (some v), ts2)

/-- Modelled from the spec: `Parser::block` (§4.3,
`block → '{' declaration* '}'`, the opening brace already consumed). -/
def block (f : Nat) (ts : Toks) : PR (List Stmt × Toks) :=
  match f with
  | 0 => .error .fuel
  | f + 1 =>
    match ts with
    | t :: rest =>
      if t.type ≠ .CLOSE_BRACE ∧ t.type ≠ .END_OF_FILE then do
        let (s, ts1) ← declaration f (t :: rest)
        let (ss, ts2) ← block f ts1
        .ok (s :: ss, ts2)
      else do
        let (_, ts1) ← consume .CLOSE_BRACE "Expect '\x7d' after block." (t :: rest)
        .ok ([], ts1)
    | [] => do
      let (_, ts1) ← consume .CLOSE_BRACE "Expect '\x7d' after block." []
      .ok (([] : List Stmt), ts1)

/-- Modelled from the spec: `Parser::expression_statement`. -/
def expression_statement (f : Nat) (ts : Toks) : PR (Stmt × Toks) :=
  match f with
  | 0 => .error .fuel
  | f + 1 => do
    let (e, ts1) ← expression f ts
    let (_, ts2) ← consume .SEMICOLON "Expect ';' after expression." ts1
    .ok (.exprStmt e, ts2)

end

/-- Whether a token type begins a new declaration or statement — the
synchronization set of §4.3 (`func`, `if`, `return`, `let`, `for`,
`while`). -/
def isDeclStart : TokenType → Bool
  | .KEYWORD_FUNC => true
  | .KEYWORD_IF => true
  | .KEYWORD_RETURN => true
  | .KEYWORD_LET => true
  | .KEYWORD_FOR => true
  | .KEYWORD_WHILE => true
  | _ => false

/-- Modelled from the spec: the scanning part of `Parser::synchronize`
(declared in `Parser.hpp` at line 60, implemented in no source file) —
after the initial advance, discard tokens until a semicolon has been
consumed or the next token begins a new declaration/statement. -/
def syncLoop : Toks → Toks
  | [] => []
  | t :: rest =>
    if t.type = .END_OF_FILE then t :: rest
    else if t.type = .SEMICOLON then rest
    else if isDeclStart t.type then t :: rest
    else syncLoop rest

/-- Modelled from the spec: `Parser::synchronize` — advance past the
offending token, then discard to a statement boundary (§4.3: "discard
tokens until one of (a) a consumed semicolon or (b) a token beginning a
new declaration/statement, then resume parsing from there"). -/
def synchronize : Toks → Toks
  | [] => []
  | _ :: rest => syncLoop rest

/-- Modelled from the spec: the declaration loop of `Parser::parse` —
each parse error is caught at the declaration level, recorded, and
followed by synchronization; a failed declaration contributes no
statement. -/
def parseLoop (f : Nat) (ts : Toks) : List Stmt × List PErr :=
  match f with
  | 0 => ([], [])
  | f + 1 =>
    match ts with
    | [] => ([], [])
    | t :: _ =>
      if t.type = .END_OF_FILE then ([], [])
      else
        match declaration f ts with
        | .ok (s, ts1) =>
          let r := parseLoop f ts1
          (s :: r.1, r.2)
        | .error (.syn e terr) =>
          let r := parseLoop f (synchronize terr)
          (r.1, e :: r.2)
        | .error .fuel => ([], [])

/-- Modelled from the spec: `Parser::parse` of `Parser.hpp` — a
best-effort statement sequence together with all syntax errors reported
during the single pass; errors never escape `parse`. -/
def parse (fuel : Nat) (ts : Toks) : List Stmt × List PErr := parseLoop fuel ts

end Ext

namespace SimPL

theorem envGet_envSet_self (env : Env) (n : String) (v : Value) :
    envGet (envSet env n v) n = some v := by
  induction env with
  | nil => simp [envSet, envGet]
  | cons p rest ih =>
    obtain ⟨m, w⟩ := p
    by_cases h : m = n
    · simp [envSet, h, envGet]
    · simp [envSet, h, envGet, ih]

theorem envGet_envSet_ne (env : Env) (m n : String) (v : Value) (hmn : m ≠ n) :
    envGet (envSet env m v) n = envGet env n := by
  induction env with
  | nil => simp [envSet, envGet, hmn]
  | cons p rest ih =>
    obtain ⟨k, w⟩ := p
    by_cases h : k = m
    · subst h
      simp [envSet, envGet, hmn]
    · simp [envSet, h, envGet, ih]

theorem eval_absent_preserved (e : Expr) :
    ∀ (env : Env) (n : String), envGet env n = none →
      envGet (eval e env).1 n = none := by
  induction e with
  | lit t =>
    intro env n h
    simpa [eval] using h
  | var t =>
    intro env n h
    cases hg : envGet env t.literal <;> simp [eval, hg, h]
  | assign t e ih =>
    intro env n h
    have h1 := ih env n h
    rcases hv : eval e env with ⟨env1, r⟩
    rw [hv] at h1
    simp at h1
    cases r with
    | error er => simp [eval, hv, h1]
    | ok v =>
      cases hg : envGet env1 t.literal with
      | none => simp [eval, hv, hg, h1]
      | some w =>
        have hne : t.literal ≠ n := by
          intro hteq
          rw [hteq, h1] at hg
          cases hg
        simp [eval, hv, hg]
        rw [envGet_envSet_ne _ _ _ _ hne]
        exact h1
  | bin l op r ihl ihr =>
    intro env n h
    have h1 := ihl env n h
    rcases hl : eval l env with ⟨env1, rl⟩
    rw [hl] at h1
    simp at h1
    cases rl with
    | error er => simp [eval, hl, h1]
    | ok a =>
      have h2 := ihr env1 n h1
      rcases hr : eval r env1 with ⟨env2, rr⟩
      rw [hr] at h2
      simp at h2
      cases rr <;> simp [eval, hl, hr, h2]

theorem noAssign_eval_env (e : Expr) :
    ∀ env : Env, noAssign e = true → (eval e env).1 = env := by
  induction e with
  | lit t => intro env _; simp [eval]
  | var t =>
    intro env _
    cases hg : envGet env t.literal <;> simp [eval, hg]
  | assign t e ih =>
    intro env h
    simp [noAssign] at h
  | bin l op r ihl ihr =>
    intro env h
    simp [noAssign] at h
    have h1 := ihl env h.1
    rcases hl : eval l env with ⟨env1, rl⟩
    rw [hl] at h1
    simp at h1
    subst h1
    cases rl with
    | error er => simp [eval, hl]
    | ok a =>
      have h2 := ihr env1 h.2
      rcases hr : eval r env1 with ⟨env2, rr⟩
      rw [hr] at h2
      simp at h2
      subst h2
      cases rr <;> simp [eval, hl, hr]

end SimPL

namespace SimPL

mutual

theorem pure_exec_env (s : Stmt) : ∀ env : Env, pureStmt s = true → (exec s env).1 = env := by
  cases s with
  | exprStmt e =>
    intro env h
    have h1 := noAssign_eval_env e env (by simpa [pureStmt] using h)
    rcases he : eval e env with ⟨env1, r⟩
    rw [he] at h1
    simp at h1
    cases r <;> simp [exec, he, h1]
  | printStmt e =>
    intro env h
    have h1 := noAssign_eval_env e env (by simpa [pureStmt] using h)
    rcases he : eval e env with ⟨env1, r⟩
    rw [he] at h1
    simp at h1
    cases r <;> simp [exec, he, h1]
  | letStmt t init =>
    intro env h
    simp [pureStmt] at h
  | block ss =>
    intro env h
    simpa [exec] using pure_execList_env ss env (by simpa [pureStmt] using h)
  | ifStmt c tB eB =>
    intro env h
    have hc : noAssign c = true := by
      cases eB with
      | none => simp [pureStmt] at h; exact h.1
      | some s2 => simp [pureStmt] at h; exact h.1.1
    have ht : pureStmt tB = true := by
      cases eB with
      | none => simp [pureStmt] at h; exact h.2
      | some s2 => simp [pureStmt] at h; exact h.1.2
    have h1 := noAssign_eval_env c env hc
    rcases hev : eval c env with ⟨env1, r⟩
    rw [hev] at h1
    simp at h1
    subst h1
    cases r with
    | error er => simp [exec, hev]
    | ok v =>
      by_cases hv : v = 0
      · cases eB with
        | none => simp [exec, hev, hv]
        | some s2 =>
          have hs2 : pureStmt s2 = true := by
            simp [pureStmt] at h
            exact h.2
          have h2 := pure_exec_env s2 env1 hs2
          simp [exec, hev, hv, h2]
      · have h2 := pure_exec_env tB env1 ht
        simp [exec, hev, hv, h2]

theorem pure_execList_env (ss : List Stmt) : ∀ env : Env, pureStmts ss = true → (execList ss env).1 = env := by
  cases ss with
  | nil => intro env _; simp [execList]
  | cons s rest =>
    intro env h
    simp [pureStmts] at h
    have h1 := pure_exec_env s env h.1
    rcases he : exec s env with ⟨env1, out1, err1⟩
    rw [he] at h1
    simp at h1
    subst h1
    cases err1 with
    | some er => simp [execList, he]
    | none =>
      have h2 := pure_execList_env rest env1 h.2
      rcases hl : execList rest env1 with ⟨env2, out2, err2⟩
      rw [hl] at h2
      simp at h2
      subst h2
      simp [execList, he, hl]

end

end SimPL

namespace SimPL

theorem execList_append_err (pre : List Stmt) :
    ∀ (s : Stmt) (post : List Stmt) (env env1 env2 : Env)
      (out1 out2 : List Value) (er : EvalErr),
      execList pre env = (env1, out1, none) →
      exec s env1 = (env2, out2, some er) →
      execList (pre ++ s :: post) env = (env2, out1 ++ out2, some er) := by
  induction pre with
  | nil =>
    intro s post env env1 env2 out1 out2 er h1 h2
    simp [execList] at h1
    obtain ⟨he, ho⟩ := h1
    subst he
    subst ho
    simp [execList, h2]
  | cons hd tl ih =>
    intro s post env env1 env2 out1 out2 er h1 h2
    rcases hh : exec hd env with ⟨envh, outh, errh⟩
    cases errh with
    | some er2 =>
      rw [execList, hh] at h1
      simp at h1
    | none =>
      rw [execList, hh] at h1
      simp at h1
      rcases hl : execList tl envh with ⟨envt, outt, errt⟩
      rw [hl] at h1
      simp at h1
      obtain ⟨h1e, h1o, h1err⟩ := h1
      have htl : execList tl envh = (env1, outt, none) := by
        rw [hl, h1e, h1err]
      have hstep := ih s post envh env1 env2 outt out2 er htl h2
      rw [List.cons_append, execList, hh]
      simp [hstep, ← h1o]

end SimPL

namespace Ext

theorem kw_getD_ne_eof (s : String) :
    (kw s).getD .IDENTIFIER ≠ .END_OF_FILE := by
  unfold kw
  cases hf : kwTable.find? (fun p => p.1 = s) with
  | none => simp
  | some p =>
    have hmem := List.mem_of_find?_eq_some hf
    fin_cases hmem <;> simp

theorem scanTokens_no_eof (cs : List Char) (line : Nat) :
    ∀ t ∈ (scanTokens cs line).1, t.type ≠ .END_OF_FILE := by
  induction cs, line using scanTokens.induct
  all_goals try simp_all [scanTokens, kw_getD_ne_eof]
  case case34 =>
    rename_i d hws hnl hdig hcond ih
    intro t ht
    split at ht
    · rename_i hc
      have h1 : d.2.head? = some '.' := hc.1
      have h2 : (Option.map Char.isDigit d.2[1]?).getD false = true := hc.2
      exact absurd h2 (by simp [hcond h1])
    · rcases List.mem_cons.mp ht with h | h
      · subst h
        simp
      · exact ih t h
  all_goals
    (intro t ht
     rename_i ih
     split at ht <;>
       (rcases List.mem_cons.mp ht with h | h <;>
         first
          | (subst h; simp)
          | exact ih t h))

theorem scanStr_no_close (cs : List Char) :
    ∀ line : Nat, ¬ '"' ∈ cs →
      ∃ ln, scanStr cs line = (cs, [], ln, false) := by
  induction cs with
  | nil => intro line _; exact ⟨line, rfl⟩
  | cons c cs ih =>
    intro line h
    have hc : ¬ c = '"' := by
      intro hcq
      exact h (by simp [hcq])
    have hrest : ¬ '"' ∈ cs := fun hm => h (by simp [hm])
    obtain ⟨ln, hln⟩ := ih (if c = '\n' then line + 1 else line) hrest
    exact ⟨ln, by simp [scanStr, hc, hln]⟩

theorem scanChr_no_close (cs : List Char) :
    ¬ '\'' ∈ cs → scanChr cs = (cs, [], false) := by
  induction cs with
  | nil => intro _; rfl
  | cons c cs ih =>
    intro h
    have hc : ¬ c = '\'' := by
      intro hcq
      exact h (by simp [hcq])
    have hrest : ¬ '\'' ∈ cs := fun hm => h (by simp [hm])
    simp [scanChr, hc, ih hrest]

theorem primary_ok_head (f : Nat) (ts : Toks) (e : Expr) (rest : Toks)
    (h : primary f ts = .ok (e, rest)) :
    ∃ t ts2, ts = t :: ts2 ∧ t.type ≠ .MINUS := by
  cases f with
  | zero => simp [primary] at h
  | succ f =>
    cases ts with
    | nil => simp [primary] at h
    | cons t ts2 =>
      refine ⟨t, ts2, rfl, ?_⟩
      intro hm
      simp [primary, hm] at h

end Ext


unseal Ext.scanTokens in
/-- C1: on a source with two independent malformed statements (two
missing semicolons on different lines), a single call to the recovering
parser's `parse` reports two distinct syntax errors, terminates with a
result, never propagates an exception (its result type is a plain
pair), and the failed declarations contribute no statement to the
returned sequence. -/
theorem multi_error_recovery :
    Ext.parse 100 (Ext.tokenize "x y;\nz w;")
      = ([], [⟨1, "Expect ';' after expression."⟩, ⟨2, "Expect ';' after expression."⟩])
    ∧ (⟨1, "Expect ';' after expression."⟩ : Ext.PErr)
      ≠ ⟨2, "Expect ';' after expression."⟩ :=
  ⟨rfl, by decide⟩

unseal SimPL.scanTokens in
/-- C3: the full pipeline (tokenize, parse, interpret) on the spec's
end-to-end source prints exactly `22` then `20` with no runtime
error. -/
theorem end_to_end_pipeline :
    SimPL.run "let a = 10; let b = 0; if (a > 5) \x7b b = a*2 + (a/5); print b; \x7d else \x7b print 999; \x7d let c = b - 2; print c;"
      = .ok ([22, 20], none) := by
  have hp : SimPL.parse 200 (SimPL.tokenize "let a = 10; let b = 0; if (a > 5) \x7b b = a*2 + (a/5); print b; \x7d else \x7b print 999; \x7d let c = b - 2; print c;")
      = .ok
      [(.letStmt ⟨.IDENTIFIER, "a", 1⟩ (some (.lit ⟨.NUMBER, "10", 1⟩))),
       (.letStmt ⟨.IDENTIFIER, "b", 1⟩ (some (.lit ⟨.NUMBER, "0", 1⟩))),
       (.ifStmt (.bin (.var ⟨.IDENTIFIER, "a", 1⟩) ⟨.GREATER, ">", 1⟩ (.lit ⟨.NUMBER, "5", 1⟩))
         (.block [(.exprStmt (.assign ⟨.IDENTIFIER, "b", 1⟩
             (.bin (.bin (.var ⟨.IDENTIFIER, "a", 1⟩) ⟨.STAR, "*", 1⟩ (.lit ⟨.NUMBER, "2", 1⟩))
               ⟨.PLUS, "+", 1⟩
               (.bin (.var ⟨.IDENTIFIER, "a", 1⟩) ⟨.SLASH, "/", 1⟩ (.lit ⟨.NUMBER, "5", 1⟩))))),
           (.printStmt (.var ⟨.IDENTIFIER, "b", 1⟩))])
         (some (.block [(.printStmt (.lit ⟨.NUMBER, "999", 1⟩))]))),
       (.letStmt ⟨.IDENTIFIER, "c", 1⟩ (some (.bin (.var ⟨.IDENTIFIER, "b", 1⟩) ⟨.MINUS, "-", 1⟩ (.lit ⟨.NUMBER, "2", 1⟩)))),
       (.printStmt (.var ⟨.IDENTIFIER, "c", 1⟩))] := rfl
  have t10 : SimPL.toNum "10" = 10 := rfl
  have t0 : SimPL.toNum "0" = 0 := rfl
  have t5 : SimPL.toNum "5" = 5 := rfl
  have t2 : SimPL.toNum "2" = 2 := rfl
  have t999 : SimPL.toNum "999" = 999 := rfl
  have hab : ¬ (("a" : String) = "b") := by decide
  have hac : ¬ (("a" : String) = "c") := by decide
  have hba : ¬ (("b" : String) = "a") := by decide
  have hbc : ¬ (("b" : String) = "c") := by decide
  have hca : ¬ (("c" : String) = "a") := by decide
  have hcb : ¬ (("c" : String) = "b") := by decide
  unfold SimPL.run
  rw [hp]
  simp only [Except.map]
  norm_num [SimPL.interpret, SimPL.execList, SimPL.exec, SimPL.eval,
    SimPL.applyBin, SimPL.envGet, SimPL.envSet, t10, t0, t5, t2, t999,
    hab, hac, hba, hbc, hca, hcb]

unseal SimPL.scanTokens in
/-- C4: multiplicative binds tighter than additive and parentheses
override: `2 + 3 * 4;` evaluates its top-level expression to `14`,
`(2 + 3) * 4;` to `20`. -/
theorem precedence_and_grouping :
    SimPL.topExprValue "2 + 3 * 4;" = some (.ok 14)
    ∧ SimPL.topExprValue "(2 + 3) * 4;" = some (.ok 20) := by
  have hp1 : SimPL.parse 200 (SimPL.tokenize "2 + 3 * 4;")
      = .ok [(.exprStmt (.bin (.lit ⟨.NUMBER, "2", 1⟩) ⟨.PLUS, "+", 1⟩
          (.bin (.lit ⟨.NUMBER, "3", 1⟩) ⟨.STAR, "*", 1⟩ (.lit ⟨.NUMBER, "4", 1⟩))))] := rfl
  have hp2 : SimPL.parse 200 (SimPL.tokenize "(2 + 3) * 4;")
      = .ok [(.exprStmt (.bin (.bin (.lit ⟨.NUMBER, "2", 1⟩) ⟨.PLUS, "+", 1⟩
          (.lit ⟨.NUMBER, "3", 1⟩)) ⟨.STAR, "*", 1⟩ (.lit ⟨.NUMBER, "4", 1⟩)))] := rfl
  have t2 : SimPL.toNum "2" = 2 := rfl
  have t3 : SimPL.toNum "3" = 3 := rfl
  have t4 : SimPL.toNum "4" = 4 := rfl
  constructor
  · unfold SimPL.topExprValue
    rw [hp1]
    norm_num [SimPL.eval, SimPL.applyBin, t2, t3, t4]
  · unfold SimPL.topExprValue
    rw [hp2]
    norm_num [SimPL.eval, SimPL.applyBin, t2, t3, t4]

/-- C2: reading a variable absent from the environment fails with an
`EvaluationError` carrying that name; assigning to an absent name (the
value itself evaluating cleanly) also fails carrying that name, never
declaring implicitly; assigning to a present name overwrites the
binding and returns the new value. -/
theorem undefined_variable_errors :
    (∀ (t : SimPL.Token) (env : SimPL.Env),
        SimPL.envGet env t.literal = none →
        SimPL.eval (.var t) env = (env, .error (.undefinedVar t.literal)))
    ∧ (∀ (t : SimPL.Token) (e : SimPL.Expr) (env env1 : SimPL.Env) (v : SimPL.Value),
        SimPL.eval e env = (env1, .ok v) →
        SimPL.envGet env t.literal = none →
        SimPL.eval (.assign t e) env = (env1, .error (.undefinedVar t.literal)))
    ∧ (∀ (t : SimPL.Token) (e : SimPL.Expr) (env env1 : SimPL.Env) (v w : SimPL.Value),
        SimPL.eval e env = (env1, .ok v) →
        SimPL.envGet env1 t.literal = some w →
        SimPL.eval (.assign t e) env = (SimPL.envSet env1 t.literal v, .ok v)
          ∧ SimPL.envGet (SimPL.envSet env1 t.literal v) t.literal = some v) := by
  refine ⟨?_, ?_, ?_⟩
  · intro t env h
    simp [SimPL.eval, h]
  · intro t e env env1 v hv h
    have h1 := SimPL.eval_absent_preserved e env t.literal h
    rw [hv] at h1
    simp at h1
    simp [SimPL.eval, hv, h1]
  · intro t e env env1 v w hv hg
    exact ⟨by simp [SimPL.eval, hv, hg],
           SimPL.envGet_envSet_self env1 t.literal v⟩

/-- C2 witness: concrete undefined read, undefined assignment, and a
successful overwrite. -/
theorem undefined_variable_errors_witness :
    SimPL.eval (.var ⟨.IDENTIFIER, "x", 1⟩) [] = ([], .error (.undefinedVar "x"))
    ∧ SimPL.eval (.assign ⟨.IDENTIFIER, "x", 1⟩ (.lit ⟨.NUMBER, "5", 1⟩)) []
        = ([], .error (.undefinedVar "x"))
    ∧ SimPL.eval (.assign ⟨.IDENTIFIER, "x", 1⟩ (.lit ⟨.NUMBER, "5", 1⟩)) [("x", 1)]
        = (SimPL.envSet [("x", 1)] "x" (SimPL.toNum "5"), .ok (SimPL.toNum "5")) :=
  ⟨undefined_variable_errors.1 ⟨.IDENTIFIER, "x", 1⟩ [] rfl,
   undefined_variable_errors.2.1 ⟨.IDENTIFIER, "x", 1⟩ (.lit ⟨.NUMBER, "5", 1⟩)
     [] [] (SimPL.toNum "5") rfl rfl,
   (undefined_variable_errors.2.2 ⟨.IDENTIFIER, "x", 1⟩ (.lit ⟨.NUMBER, "5", 1⟩)
     [("x", 1)] [("x", 1)] (SimPL.toNum "5") 1 rfl rfl).1⟩

unseal SimPL.scanTokens in
/-- C5: if the left-hand side of `=` did not parse as a `Variable` node
(and the right-hand side parses), `assignment` raises the syntax error
"Invalid assignment target." at the `=` token's line; concretely,
`10 = 5;` is rejected with exactly that error and never accepted. -/
theorem invalid_assignment_target :
    (∀ (f : Nat) (ts rest ts2 : SimPL.Toks) (e v : SimPL.Expr) (t : SimPL.Token),
        SimPL.equality f ts = .ok (e, t :: rest) →
        t.type = .EQUAL →
        SimPL.isVarE e = false →
        SimPL.assignment f rest = .ok (v, ts2) →
        SimPL.assignment (f + 1) ts = .error (.syn t.line "Invalid assignment target."))
    ∧ SimPL.parse 200 (SimPL.tokenize "10 = 5;")
        = .error (.syn 1 "Invalid assignment target.") := by
  constructor
  · intro f ts rest ts2 e v t heq ht hvar hasn
    cases e with
    | var n => simp [SimPL.isVarE] at hvar
    | lit tt => simp [SimPL.assignment, heq, ht, hasn, bind, Except.bind]
    | assign n v2 => simp [SimPL.assignment, heq, ht, hasn, bind, Except.bind]
    | bin l op r => simp [SimPL.assignment, heq, ht, hasn, bind, Except.bind]
  · rfl

/-- C5 witness: the general invalid-target theorem applied to the token
sequence of `10 = 5;`. -/
theorem invalid_assignment_target_witness :
    SimPL.assignment 21 [⟨.NUMBER, "10", 1⟩, ⟨.EQUAL, "=", 1⟩, ⟨.NUMBER, "5", 1⟩,
        ⟨.SEMICOLON, ";", 1⟩, ⟨.END_OF_FILE, "", 1⟩]
      = .error (.syn 1 "Invalid assignment target.") :=
  invalid_assignment_target.1 20
    [⟨.NUMBER, "10", 1⟩, ⟨.EQUAL, "=", 1⟩, ⟨.NUMBER, "5", 1⟩, ⟨.SEMICOLON, ";", 1⟩,
     ⟨.END_OF_FILE, "", 1⟩]
    [⟨.NUMBER, "5", 1⟩, ⟨.SEMICOLON, ";", 1⟩, ⟨.END_OF_FILE, "", 1⟩]
    [⟨.SEMICOLON, ";", 1⟩, ⟨.END_OF_FILE, "", 1⟩]
    (.lit ⟨.NUMBER, "10", 1⟩) (.lit ⟨.NUMBER, "5", 1⟩) ⟨.EQUAL, "=", 1⟩
    rfl rfl rfl rfl

unseal SimPL.scanTokens in
/-- C6: if-statement truthiness — a condition evaluating to any nonzero
value executes the then-branch, a zero condition executes the
else-branch when present and nothing otherwise; concretely
`if (0) print 1; else print 2;` prints exactly `2`. -/
theorem if_truthiness :
    (∀ (c : SimPL.Expr) (tB : SimPL.Stmt) (eB : Option SimPL.Stmt)
        (env env1 : SimPL.Env) (v : SimPL.Value),
        SimPL.eval c env = (env1, .ok v) →
        (v ≠ 0 → SimPL.exec (.ifStmt c tB eB) env = SimPL.exec tB env1)
        ∧ (v = 0 → eB = none → SimPL.exec (.ifStmt c tB eB) env = (env1, [], none))
        ∧ (∀ s, v = 0 → eB = some s →
            SimPL.exec (.ifStmt c tB eB) env = SimPL.exec s env1))
    ∧ SimPL.run "if (0) print 1; else print 2;" = .ok ([2], none) := by
  constructor
  · intro c tB eB env env1 v hv
    refine ⟨?_, ?_, ?_⟩
    · intro hnz
      simp [SimPL.exec, hv, hnz]
    · intro hz he
      subst hz
      subst he
      simp [SimPL.exec, hv]
    · intro s hz he
      subst hz
      subst he
      simp [SimPL.exec, hv]
  · rfl

/-- C6 witness: a nonzero condition selects the then-branch; a zero
condition selects the else-branch. -/
theorem if_truthiness_witness :
    SimPL.exec (.ifStmt (.lit ⟨.NUMBER, "1", 1⟩)
        (.printStmt (.lit ⟨.NUMBER, "7", 1⟩)) none) []
      = SimPL.exec (.printStmt (.lit ⟨.NUMBER, "7", 1⟩)) []
    ∧ SimPL.exec (.ifStmt (.lit ⟨.NUMBER, "0", 1⟩)
        (.printStmt (.lit ⟨.NUMBER, "7", 1⟩))
        (some (.printStmt (.lit ⟨.NUMBER, "8", 1⟩)))) []
      = SimPL.exec (.printStmt (.lit ⟨.NUMBER, "8", 1⟩)) [] :=
  ⟨(if_truthiness.1 (.lit ⟨.NUMBER, "1", 1⟩) (.printStmt (.lit ⟨.NUMBER, "7", 1⟩))
      none [] [] (SimPL.toNum "1") rfl).1 (by decide),
   (if_truthiness.1 (.lit ⟨.NUMBER, "0", 1⟩) (.printStmt (.lit ⟨.NUMBER, "7", 1⟩))
      (some (.printStmt (.lit ⟨.NUMBER, "8", 1⟩))) [] [] (SimPL.toNum "0") rfl).2.2
      (.printStmt (.lit ⟨.NUMBER, "8", 1⟩)) (by decide) rfl⟩

/-- C7: if executing statement `i` of a sequence raises a runtime
error, `interpret` reports exactly that error together with the output
produced so far, and no statement after `i` contributes anything —
runtime errors are fatal to the remainder of the run. -/
theorem runtime_error_is_fatal (pre : List SimPL.Stmt) (s : SimPL.Stmt)
    (post : List SimPL.Stmt) (env1 env2 : SimPL.Env)
    (out1 out2 : List SimPL.Value) (er : SimPL.EvalErr)
    (h1 : SimPL.execList pre [] = (env1, out1, none))
    (h2 : SimPL.exec s env1 = (env2, out2, some er)) :
    SimPL.interpret (pre ++ s :: post) = (out1 ++ out2, some er) := by
  unfold SimPL.interpret
  rw [SimPL.execList_append_err pre s post [] env1 env2 out1 out2 er h1 h2]

/-- C7 witness: `print 1; print x; print 3;` with `x` unbound prints
`1`, reports the undefined-variable error, and never prints `3`. -/
theorem runtime_error_is_fatal_witness :
    SimPL.interpret
      [.printStmt (.lit ⟨.NUMBER, "1", 1⟩),
       .printStmt (.var ⟨.IDENTIFIER, "x", 1⟩),
       .printStmt (.lit ⟨.NUMBER, "3", 1⟩)]
      = ([SimPL.toNum "1"], some (.undefinedVar "x")) :=
  runtime_error_is_fatal [.printStmt (.lit ⟨.NUMBER, "1", 1⟩)]
    (.printStmt (.var ⟨.IDENTIFIER, "x", 1⟩))
    [.printStmt (.lit ⟨.NUMBER, "3", 1⟩)] [] [] [SimPL.toNum "1"] []
    (.undefinedVar "x") rfl rfl

/-- C8: the extended expression grammar has a unary level between
factor and primary — for every token sequence on which `primary`
succeeds, prefixing a `-` token makes `unary` succeed with a unary
negation node over the same parse, consuming the same remainder. -/
theorem unary_minus_level (f : Nat) (ts : Ext.Toks) (e : Ext.Expr)
    (rest : Ext.Toks) (s : String) (ln : Nat)
    (h : Ext.primary f ts = .ok (e, rest)) :
    Ext.unary (f + 2) (⟨s, .MINUS, ln⟩ :: ts)
      = .ok (.unary ⟨s, .MINUS, ln⟩ e, rest) := by
  obtain ⟨t, ts2, hts, hmt⟩ := Ext.primary_ok_head f ts e rest h
  subst hts
  simp [Ext.unary, hmt, h, bind, Except.bind]

/-- C8 witness: `- 5` parses as a unary negation of the literal `5`. -/
theorem unary_minus_level_witness :
    Ext.unary 5 [⟨"-", .MINUS, 1⟩, ⟨"5", .INTEGER_LITERAL, 1⟩, ⟨"", .END_OF_FILE, 1⟩]
      = .ok (.unary ⟨"-", .MINUS, 1⟩ (.literal ⟨"5", .INTEGER_LITERAL, 1⟩),
             [⟨"", .END_OF_FILE, 1⟩]) :=
  unary_minus_level 3 [⟨"5", .INTEGER_LITERAL, 1⟩, ⟨"", .END_OF_FILE, 1⟩]
    (.literal ⟨"5", .INTEGER_LITERAL, 1⟩) [⟨"", .END_OF_FILE, 1⟩] "-" 1 rfl

/-- C9: an unterminated string or char literal does not abort the
lexer: the scan emits a single `UNKNOWN` token covering the rest of the
input and the loop then ends; and for every source, `tokenize` returns
the scanned tokens terminated by the `END_OF_FILE` sentinel, a kind no
scanned token ever carries. -/
theorem unterminated_literal_handling :
    (∀ (cs : List Char) (line : Nat), ¬ '"' ∈ cs →
        ∃ ln, Ext.scanTokens ('"' :: cs) line
          = ([⟨String.mk ('"' :: cs), .UNKNOWN, ln⟩], ln))
    ∧ (∀ (cs : List Char) (line : Nat), ¬ '\'' ∈ cs →
        Ext.scanTokens ('\'' :: cs) line
          = ([⟨String.mk ('\'' :: cs), .UNKNOWN, line⟩], line))
    ∧ (∀ src : String, ∃ ln,
        Ext.tokenize src = (Ext.scanTokens src.data 1).1 ++ [⟨"", .END_OF_FILE, ln⟩]
        ∧ ∀ t ∈ (Ext.scanTokens src.data 1).1, t.type ≠ .END_OF_FILE) := by
  refine ⟨?_, ?_, ?_⟩
  · intro cs line h
    obtain ⟨ln, hln⟩ := Ext.scanStr_no_close cs line h
    refine ⟨ln, ?_⟩
    simp [Ext.scanTokens, hln]
  · intro cs line h
    have hc := Ext.scanChr_no_close cs h
    simp [Ext.scanTokens, hc]
  · intro src
    exact ⟨(Ext.scanTokens src.data 1).2, rfl, Ext.scanTokens_no_eof _ _⟩

/-- C9 witness: the unterminated literals `"ab` and `'a`, and the
end-of-file shape of `tokenize` on a small source. -/
theorem unterminated_literal_handling_witness :
    (∃ ln, Ext.scanTokens ['"', 'a', 'b'] 1
        = ([⟨String.mk ['"', 'a', 'b'], .UNKNOWN, ln⟩], ln))
    ∧ Ext.scanTokens ['\'', 'a'] 1 = ([⟨String.mk ['\'', 'a'], .UNKNOWN, 1⟩], 1)
    ∧ (∃ ln, Ext.tokenize "x"
        = (Ext.scanTokens "x".data 1).1 ++ [⟨"", .END_OF_FILE, ln⟩]
        ∧ ∀ t ∈ (Ext.scanTokens "x".data 1).1, t.type ≠ .END_OF_FILE) :=
  ⟨unterminated_literal_handling.1 ['a', 'b'] 1 (by decide),
   unterminated_literal_handling.2.1 ['a'] 1 (by decide),
   unterminated_literal_handling.2.2 "x"⟩

/-- C10: evaluating an expression with no `Assign` subexpression leaves
the environment unchanged; a statement with no `let` and no `Assign`
anywhere inside leaves it unchanged; and an `Assign` whose target is
unbound (with an assignment-free value) also leaves it unchanged — only
`let` and `Assign`-to-a-bound-name mutate the environment. -/
theorem environment_frame :
    (∀ (e : SimPL.Expr) (env : SimPL.Env),
        SimPL.noAssign e = true → (SimPL.eval e env).1 = env)
    ∧ (∀ (s : SimPL.Stmt) (env : SimPL.Env),
        SimPL.pureStmt s = true → (SimPL.exec s env).1 = env)
    ∧ (∀ (t : SimPL.Token) (e : SimPL.Expr) (env : SimPL.Env),
        SimPL.noAssign e = true →
        SimPL.envGet env t.literal = none →
        (SimPL.eval (.assign t e) env).1 = env) := by
  refine ⟨fun e env h => SimPL.noAssign_eval_env e env h,
          fun s env h => SimPL.pure_exec_env s env h, ?_⟩
  intro t e env hna hab
  have h1 := SimPL.noAssign_eval_env e env hna
  rcases hv : SimPL.eval e env with ⟨env1, r⟩
  rw [hv] at h1
  simp at h1
  subst h1
  cases r with
  | error er => simp [SimPL.eval, hv]
  | ok v => simp [SimPL.eval, hv, hab]

/-- C10 witness: an assignment-free binary expression, a pure print
statement, and an assignment to an unbound name all preserve concrete
environments. -/
theorem environment_frame_witness :
    (SimPL.eval (.bin (.lit ⟨.NUMBER, "1", 1⟩) ⟨.PLUS, "+", 1⟩
        (.lit ⟨.NUMBER, "2", 1⟩)) []).1 = []
    ∧ (SimPL.exec (.printStmt (.lit ⟨.NUMBER, "1", 1⟩)) [("y", 2)]).1 = [("y", 2)]
    ∧ (SimPL.eval (.assign ⟨.IDENTIFIER, "x", 1⟩ (.lit ⟨.NUMBER, "5", 1⟩)) []).1 = [] :=
  ⟨environment_frame.1 (.bin (.lit ⟨.NUMBER, "1", 1⟩) ⟨.PLUS, "+", 1⟩
      (.lit ⟨.NUMBER, "2", 1⟩)) [] rfl,
   environment_frame.2.1 (.printStmt (.lit ⟨.NUMBER, "1", 1⟩)) [("y", 2)] rfl,
   environment_frame.2.2 ⟨.IDENTIFIER, "x", 1⟩ (.lit ⟨.NUMBER, "5", 1⟩) [] rfl rfl⟩
